import Mathlib

/-!
Verification development for the DataScrapper repository.

The embedded code comes from two Python sources:
* `src/WebScrapper.py` — class `WebScraper`, in particular `extract_articles`
  (selector fallback chain, URL resolution, validity filter, de-duplication)
  and `_is_valid_article_url`.
* `src/DataScrapper.py` — `scrape_specific_content` (generic text extraction).

External collaborators are embedded as follows:
* The parsed HTML document (BeautifulSoup) is a structure exposing the
  document-query operations the code uses: `select` (CSS selector engine,
  treated as an abstract query since the engine is an external library) and
  the document-order list of anchor elements (`find_all('a', ...)`).
  `get_text(strip=True)` is modelled as trimming the element's text.
* `urllib.parse.urljoin` / `urlparse` are re-implemented below following the
  CPython source (`urlsplit` scheme/netloc/fragment/query splitting, the
  `uses_relative` / `uses_netloc` tables, base-path merging and dot-segment
  resolution).  URL parameters (`;`) and control-character stripping are not
  modelled; no input considered here contains them.
* HTTP fetching, printing and file writing are I/O collaborators outside the
  extraction core and are not modelled.
-/

namespace Scraper

/-- Characters allowed in a URL scheme, per `urllib.parse.scheme_chars`:
ASCII letters, digits, and the three characters `+`, `-`, `.`. -/
def isSchemeChar (c : Char) : Bool :=
  c.isAlpha || c.isDigit || c == '+' || c == '-' || c == '.'

/-- Split a character list at the first occurrence of `c`; `none` when `c`
does not occur.  Models Python `str.find` followed by slicing, and
`str.partition`. -/
def splitOnFirstCh (c : Char) : List Char → Option (List Char × List Char)
  | [] => none
  | x :: xs =>
    if x == c then some ([], xs)
    else
      match splitOnFirstCh c xs with
      | none => none
      | some (front, back) => some (x :: front, back)

/-- Does `pat` occur at the head of the first list?  Helper for the
substring test. -/
def startsWithChars : List Char → List Char → Bool
  | _, [] => true
  | [], _ :: _ => false
  | a :: as, b :: bs => a == b && startsWithChars as bs

/-- Substring occurrence on character lists. -/
def hasSubstrChars (pat : List Char) : List Char → Bool
  | [] => pat.isEmpty
  | c :: cs => startsWithChars (c :: cs) pat || hasSubstrChars pat cs

/-- Models the Python expression `pat in s` on strings. -/
def containsSubstr (s pat : String) : Bool :=
  hasSubstrChars pat.toList s.toList

/-- Models Python `str.lower()` (ASCII case folding; the URLs handled by the
scraper are ASCII). -/
def lowerStr (s : String) : String :=
  String.mk (s.toList.map Char.toLower)

/-- Does `s` start with `pat`?  (Same as `String.startsWith`, stated over the
character lists.) -/
def strStartsWith (s pat : String) : Bool :=
  startsWithChars s.toList pat.toList

/-- Split a character list at every occurrence of `c`; models Python
`str.split(c)` (so the empty list of characters yields one empty field). -/
def splitOnCh (c : Char) : List Char → List (List Char)
  | [] => [[]]
  | x :: xs =>
    if x == c then [] :: splitOnCh c xs
    else
      match splitOnCh c xs with
      | [] => [[x]]
      | h :: t => (x :: h) :: t

/-- Models Python `s.split('/')`. -/
def splitSlash (s : String) : List String :=
  (splitOnCh '/' s.toList).map String.mk

/-- Models Python `sep.join(parts)`. -/
def joinWith (sep : String) : List String → String
  | [] => ""
  | [x] => x
  | x :: y :: rest => x ++ sep ++ joinWith sep (y :: rest)

/-- ASCII whitespace, as stripped by `get_text(strip=True)` / `str.strip()`
on the documents considered here. -/
def isSpaceChar (c : Char) : Bool :=
  c == ' ' || c == '\t' || c == '\n' || c == '\r'

/-- Whitespace-trim a character list on both ends. -/
def trimChars (l : List Char) : List Char :=
  ((l.dropWhile isSpaceChar).reverse.dropWhile isSpaceChar).reverse

/-- Models Python `str.strip()` (and `get_text(strip=True)` for the
single-text elements considered here). -/
def strTrim (s : String) : String :=
  String.mk (trimChars s.toList)

/-- Result of `urllib.parse.urlsplit`: scheme, network location, path, query
and fragment.  URL parameters (`;`, only split off by `urlparse`) are not
modelled; they are empty for every URL considered here. -/
structure UrlParts where
  scheme : String
  netloc : String
  path : String
  query : String
  fragment : String
deriving DecidableEq

/-- Models `urllib.parse.urlsplit(url, scheme=defaultScheme)` from CPython:
an explicit scheme (a colon preceded by a non-empty run of scheme characters
starting with an ASCII letter) is split off and lowercased, otherwise the
default scheme is kept; `//...` introduces the netloc, delimited by the first
of `/`, `?`, `#`; then the fragment is split at the first `#` and the query
at the first `?`. -/
def urlsplitD (url : String) (defaultScheme : String) : UrlParts :=
  let chars := url.toList
  let schemeRest : String × List Char :=
    match splitOnFirstCh ':' chars with
    | some (p :: front, back) =>
      if p.isAlpha && (p :: front).all isSchemeChar then
        (String.mk ((p :: front).map Char.toLower), back)
      else (defaultScheme, chars)
    | some ([], _) => (defaultScheme, chars)
    | none => (defaultScheme, chars)
  let scheme := schemeRest.1
  let rest := schemeRest.2
  let netlocRest : List Char × List Char :=
    if rest.take 2 == ['/', '/'] then
      ((rest.drop 2).takeWhile (fun c => c != '/' && c != '?' && c != '#'),
       (rest.drop 2).dropWhile (fun c => c != '/' && c != '?' && c != '#'))
    else ([], rest)
  let fragSplit : List Char × List Char :=
    match splitOnFirstCh '#' netlocRest.2 with
    | some (front, back) => (front, back)
    | none => (netlocRest.2, [])
  let querySplit : List Char × List Char :=
    match splitOnFirstCh '?' fragSplit.1 with
    | some (front, back) => (front, back)
    | none => (fragSplit.1, [])
  { scheme := scheme
    netloc := String.mk netlocRest.1
    path := String.mk querySplit.1
    query := String.mk querySplit.2
    fragment := String.mk fragSplit.2 }

/-- Hex digits, per `ipaddress._BaseV6._HEX_DIGITS`. -/
def isHexDigit (c : Char) : Bool :=
  c.isDigit || ('a' ≤ c && c ≤ 'f') || ('A' ≤ c && c ≤ 'F')

/-- Decimal value of a digit string. -/
def octetValue (s : List Char) : Nat :=
  s.foldl (fun n c => n * 10 + (c.toNat - 48)) 0

/-- Models `ipaddress.IPv4Address._parse_octet`: non-empty, ASCII digits
only, at most 3 characters, no leading zero unless the octet is exactly 0,
value at most 255. -/
def isValidIPv4Octet (s : List Char) : Bool :=
  !s.isEmpty && s.all Char.isDigit && decide (s.length ≤ 3) &&
    (s == ['0'] || s.headD '0' != '0') && decide (octetValue s ≤ 255)

/-- Models `ipaddress.IPv4Address` textual validity: exactly four valid
octets separated by dots. -/
def isValidIPv4 (s : List Char) : Bool :=
  (splitOnCh '.' s).length == 4 && (splitOnCh '.' s).all isValidIPv4Octet

/-- Models `ipaddress.IPv6Address._parse_hextet` validity: non-empty, hex
digits only, at most 4 characters. -/
def isValidHextet (s : List Char) : Bool :=
  !s.isEmpty && s.all isHexDigit && decide (s.length ≤ 4)

/-- The embedded-IPv4 step of `ipaddress.IPv6Address._ip_int_from_string`:
when the last colon-separated part contains a dot it must be a valid IPv4
address and is replaced by two (always valid) hextets; `none` models the
ValueError when it is not valid IPv4. -/
def expandIPv4Suffix (parts : List (List Char)) : Option (List (List Char)) :=
  match parts.getLast? with
  | none => some parts
  | some lastPart =>
    if lastPart.contains '.' then
      if isValidIPv4 lastPart then some (parts.dropLast ++ [['0'], ['0']])
      else none
    else some parts

/-- The group-counting core of `_ip_int_from_string` after IPv4 expansion:
at most 9 parts; at most one empty part strictly inside, acting as the
double-colon skip; an empty first (resp. last) part is only allowed
directly next to the skip; at least one group must be skipped; all parsed
groups are valid hextets.  Without a skip there must be exactly 8 non-empty
valid hextets. -/
def ipv6GroupsOk (parts : List (List Char)) : Bool :=
  if decide (9 < parts.length) then false
  else
    match (parts.drop 1).dropLast.findIdx? (fun p => p.isEmpty) with
    | none =>
      parts.length == 8 && !(parts.headD []).isEmpty &&
        !(parts.getLastD []).isEmpty && parts.all isValidHextet
    | some mi =>
      if ((parts.drop 1).dropLast.drop (mi + 1)).any (fun p => p.isEmpty) then
        false
      else
        if (parts.headD []).isEmpty && !(mi == 0) then false
        else if (parts.getLastD []).isEmpty &&
            !(parts.length - (mi + 1) - 2 == 0) then false
        else
          if decide (8 ≤ (if (parts.headD []).isEmpty then mi else mi + 1) +
              (if (parts.getLastD []).isEmpty then parts.length - (mi + 1) - 2
               else parts.length - (mi + 1) - 1)) then false
          else
            (parts.take (if (parts.headD []).isEmpty then mi else mi + 1)).all
                isValidHextet &&
              (parts.drop (parts.length -
                (if (parts.getLastD []).isEmpty then parts.length - (mi + 1) - 2
                 else parts.length - (mi + 1) - 1))).all isValidHextet

/-- Models `ipaddress.IPv6Address._ip_int_from_string` validity (without
the scope id): non-empty, at least 3 colon-separated parts, embedded IPv4
expanded, then group counting. -/
def isValidIPv6Addr (addr : List Char) : Bool :=
  if addr.isEmpty then false
  else if decide ((splitOnCh ':' addr).length < 3) then false
  else
    match expandIPv4Suffix (splitOnCh ':' addr) with
    | none => false
    | some parts => ipv6GroupsOk parts

/-- Models `ipaddress.IPv6Address` textual validity including
`_split_scope_id`: an optional percent-separated scope id must be non-empty
and contain no further percent sign. -/
def isValidIPv6Host (host : List Char) : Bool :=
  match splitOnFirstCh '%' host with
  | none => isValidIPv6Addr host
  | some (addr, scope) =>
    if scope.isEmpty || scope.contains '%' then false
    else isValidIPv6Addr addr

/-- Models `urllib.parse._check_bracketed_host`: a host starting with a
lowercase v must match the IPvFuture shape (v, one or more hex digits, a
dot, then at least one further non-newline character); any other host must
be a valid IPv6 address (`ipaddress.ip_address` raises for anything else,
including an IPv4 address in brackets). -/
def checkBracketedHost (host : List Char) : Bool :=
  match host with
  | 'v' :: rest =>
    match rest.dropWhile isHexDigit with
    | '.' :: t =>
      !(rest.takeWhile isHexDigit).isEmpty && !t.isEmpty && !t.contains '\n'
    | _ => false
  | _ => isValidIPv6Host host

/-- Models `netloc.partition('[')[2].partition(']')[0]`: the text after the
first opening bracket and before the following closing bracket. -/
def bracketedHostOf (netloc : List Char) : List Char :=
  match splitOnFirstCh '[' netloc with
  | none => []
  | some (_, back) =>
    match splitOnFirstCh ']' back with
    | none => back
    | some (front, _) => front

/-- Models `urllib.parse.urlsplit` including its ValueError paths on the
netloc (CPython 3.11): an unbalanced bracket raises Invalid IPv6 URL, and a
balanced bracket pair must enclose a valid bracketed host.  The error
message strings are representative, not byte-for-byte CPython's.  The NFKC
normalization check, which can only fire for non-ASCII netlocs, is not
modelled.  On every non-raising input the result is `urlsplitD`. -/
def urlsplitE (url : String) (defaultScheme : String) :
    Except String UrlParts :=
  let parts := urlsplitD url defaultScheme
  let netloc := parts.netloc.toList
  if (netloc.contains '[' && !netloc.contains ']') ||
      (netloc.contains ']' && !netloc.contains '[') then
    Except.error "Invalid IPv6 URL"
  else if netloc.contains '[' && netloc.contains ']' &&
      !checkBracketedHost (bracketedHostOf netloc) then
    Except.error "invalid bracketed host"
  else Except.ok parts

/-- Models `urllib.parse.urlunsplit`. -/
def urlunsplit (p : UrlParts) : String :=
  let u := p.path
  let u :=
    if p.netloc ≠ "" ∨ (u ≠ "" ∧ strStartsWith u "//" = true) then
      "//" ++ p.netloc ++
        (if u ≠ "" ∧ strStartsWith u "/" = false then "/" ++ u else u)
    else u
  let u := if p.scheme ≠ "" then p.scheme ++ ":" ++ u else u
  let u := if p.query ≠ "" then u ++ "?" ++ p.query else u
  if p.fragment ≠ "" then u ++ "#" ++ p.fragment else u

/-- `urllib.parse.uses_relative`: schemes for which relative resolution is
performed. -/
def usesRelative : List String :=
  ["", "ftp", "http", "gopher", "nntp", "imap", "wais", "file", "https",
   "shttp", "mms", "prospero", "rtsp", "rtspu", "sftp", "svn", "svn+ssh",
   "ws", "wss"]

/-- `urllib.parse.uses_netloc`: schemes whose URLs carry a network
location. -/
def usesNetloc : List String :=
  ["", "ftp", "http", "gopher", "nntp", "telnet", "imap", "wais", "file",
   "mms", "https", "shttp", "snews", "prospero", "rtsp", "rtspu", "rsync",
   "svn", "svn+ssh", "sftp", "nfs", "git", "git+ssh", "ws", "wss",
   "itms-services"]

/-- Drop empty strings strictly between the first and last element.  Models
the CPython `urljoin` step `segments[1:-1] = filter(None, segments[1:-1])`
(the helper handles everything after the first element, keeping the last
element even when empty). -/
def dropEmptyTail : List String → List String
  | [] => []
  | [x] => [x]
  | x :: y :: rest =>
    if x = "" then dropEmptyTail (y :: rest) else x :: dropEmptyTail (y :: rest)

/-- Keep the first element, drop empty middle segments, keep the last. -/
def filterEmptyMiddle : List String → List String
  | [] => []
  | x :: rest => x :: dropEmptyTail rest

/-- Models `urllib.parse.urljoin(base, url)` from CPython: schemes are
compared (a missing scheme inherits the base scheme); an explicit netloc
short-circuits; an empty path inherits the base path (and base query when
the query is empty); otherwise the path is merged with the base directory,
empty middle segments are filtered, and `.` / `..` segments are resolved. -/
def urljoin (base url : String) : String :=
  if base = "" then url
  else if url = "" then base
  else
    let b := urlsplitD base ""
    let u := urlsplitD url b.scheme
    if u.scheme ≠ b.scheme ∨ u.scheme ∉ usesRelative then url
    else if u.scheme ∈ usesNetloc ∧ u.netloc ≠ "" then
      urlunsplit { scheme := u.scheme, netloc := u.netloc, path := u.path,
                   query := u.query, fragment := u.fragment }
    else
      let netloc := if u.scheme ∈ usesNetloc then b.netloc else u.netloc
      if u.path = "" then
        urlunsplit { scheme := u.scheme, netloc := netloc, path := b.path,
                     query := (if u.query = "" then b.query else u.query),
                     fragment := u.fragment }
      else
        let baseParts := splitSlash b.path
        let baseParts :=
          if baseParts.getLast? = some "" then baseParts else baseParts.dropLast
        let segments :=
          if strStartsWith u.path "/" then splitSlash u.path
          else filterEmptyMiddle (baseParts ++ splitSlash u.path)
        let resolved := segments.foldl
          (fun acc seg =>
            if seg = ".." then acc.dropLast
            else if seg = "." then acc
            else acc ++ [seg]) []
        let resolved :=
          if segments.getLast? = some "." ∨ segments.getLast? = some ".." then
            resolved ++ [""]
          else resolved
        let joined := joinWith "/" resolved
        urlunsplit { scheme := u.scheme, netloc := netloc,
                     path := (if joined = "" then "/" else joined),
                     query := u.query, fragment := u.fragment }

/-- The `skip_patterns` list of `WebScraper._is_valid_article_url`
(src/WebScrapper.py, lines 158-162). -/
def skipPatterns : List String :=
  ["#", "javascript:", "mailto:", "tel:",
   "/tag/", "/category/", "/author/", "/feed/",
   ".pdf", ".jpg", ".png", ".gif", ".css", ".js"]

/-- `WebScraper._is_valid_article_url` (src/WebScrapper.py, lines 140-167),
including its `try/except` wrapper: a ValueError raised while parsing the
URL yields False rather than propagating; otherwise reject when the parsed
scheme does not start with `http`, then reject when any skip pattern occurs
in the lowercased URL. -/
def is_valid_article_url (url : String) : Bool :=
  match urlsplitE url "" with
  | Except.error _ => false
  | Except.ok parsed =>
    if strStartsWith parsed.scheme "http" then
      !(skipPatterns.any (fun p => containsSubstr (lowerStr url) p))
    else false

/-- An HTML element as used by `extract_articles`: its visible text content
and its `href` attribute (`none` when absent). -/
structure Element where
  text : String
  href : Option String
deriving DecidableEq

/-- `get_text(strip=True)`: the whitespace-trimmed visible text. -/
def getTextStrip (e : Element) : String :=
  strTrim e.text

/-- An output record of `extract_articles`: `{'title': ..., 'url': ...}`. -/
structure Article where
  title : String
  url : String
deriving DecidableEq

/-- The parsed document: `select` is the CSS selector query (external
engine, abstract here) and `anchors` the document-order list of all anchor
elements. -/
structure Soup where
  select : String → List Element
  anchors : List Element

/-- The `article_selectors` list of `extract_articles`
(src/WebScrapper.py, lines 84-94). -/
def articleSelectors : List String :=
  ["article h2 a", "h1 a", "h2 a", "h3 a",
   ".post-title a", ".entry-title a",
   "a[href*=\"/blog/\"]", "a[href*=\"/post/\"]", "a[href*=\"/article/\"]"]

/-- The selector loop (src/WebScrapper.py, lines 96-101): try each selector
in order, stopping at the first one with a non-empty match; when every
selector matches nothing the loop leaves `links` empty. -/
def firstNonEmptySelect (soup : Soup) : List String → List Element
  | [] => []
  | s :: rest =>
    if (soup.select s).isEmpty then firstNonEmptySelect soup rest
    else soup.select s

/-- The fallback rule (src/WebScrapper.py, lines 103-108):
`find_all('a', href=True)` filtered to anchors whose stripped text is truthy
and longer than 10 characters. -/
def fallbackLinks (soup : Soup) : List Element :=
  (soup.anchors.filter (fun a => a.href.isSome)).filter
    (fun l => decide (getTextStrip l ≠ "") && decide (10 < (getTextStrip l).length))

/-- The per-link body of the extraction loop (src/WebScrapper.py,
lines 111-124): skip when title or href is falsy, resolve the href against
the base URL, keep the record only when the URL-validity filter accepts. -/
def recordOf (base : String) (link : Element) : Option Article :=
  match link.href with
  | none => none
  | some href =>
    if getTextStrip link ≠ "" ∧ href ≠ "" then
      if is_valid_article_url (urljoin base href) then
        some { title := getTextStrip link, url := urljoin base href }
      else none
    else none

/-- The extraction loop over the chosen links. -/
def processLinks (base : String) (links : List Element) : List Article :=
  links.filterMap (recordOf base)

/-- The de-duplication pass (src/WebScrapper.py, lines 126-132): keep a
record only when its URL has not been seen yet. -/
def dedupArticles : List Article → List String → List Article
  | [], _ => []
  | a :: rest, seen =>
    if a.url ∈ seen then dedupArticles rest seen
    else a :: dedupArticles rest (a.url :: seen)

/-- The links actually processed: the first non-empty selector match, or the
fallback anchors when no selector matched (the `if not links` reassignment,
src/WebScrapper.py, lines 103-108). -/
def effectiveLinks (soup : Soup) : List Element :=
  if (firstNonEmptySelect soup articleSelectors).isEmpty then fallbackLinks soup
  else firstNonEmptySelect soup articleSelectors

/-- The `try:` body of `extract_articles`; in this embedding every operation
it performs is total, so the body always succeeds. -/
def extract_articles_body (base : String) (soup : Soup) :
    Except String (List Article) :=
  Except.ok (dedupArticles (processLinks base (effectiveLinks soup)) [])

/-- The `except Exception: ... return []` handler wrapped around the body of
`extract_articles` (src/WebScrapper.py, lines 136-138): any error degrades
to the empty list. -/
def catchExtract (r : Except String (List Article)) : List Article :=
  match r with
  | Except.ok l => l
  | Except.error _ => []

/-- `WebScraper.extract_articles` (src/WebScrapper.py, lines 69-138). -/
def extract_articles (base : String) (soup : Soup) : List Article :=
  catchExtract (extract_articles_body base soup)

/-- An element node of `src/DataScrapper.py`'s document model: tag name,
class list, optional id attribute, and text content. -/
structure Node where
  tag : String
  classes : List String
  idAttr : Option String
  text : String
deriving DecidableEq

/-- A parsed document as a document-order list of element nodes. -/
structure Document where
  nodes : List Node

/-- `soup.find_all(tag)`. -/
def findAllTag (doc : Document) (tag : String) : List Node :=
  doc.nodes.filter (fun n => n.tag == tag)

/-- `soup.find_all(tag, class_=class_name)`: BeautifulSoup matches when the
requested class is among the element's classes. -/
def findAllTagClass (doc : Document) (tag : String) (cls : String) : List Node :=
  doc.nodes.filter (fun n => n.tag == tag && n.classes.contains cls)

/-- `soup.find_all(tag, id=id_name)`. -/
def findAllTagId (doc : Document) (tag : String) (idName : String) : List Node :=
  doc.nodes.filter (fun n => n.tag == tag && n.idAttr == some idName)

/-- Python truthiness of an optional string (`None` and `""` are falsy). -/
def optTruthy : Option String → Bool
  | none => false
  | some s => !(s == "")

/-- `scrape_specific_content` (src/DataScrapper.py, lines 5-15), extraction
part; the HTTP fetch and HTML parse that produce the document are external
I/O.  Selects elements by tag plus optional class or id filter, then keeps
each element's stripped text when it is non-empty. -/
def scrape_specific_content (doc : Document) (tag : String)
    (className idName : Option String) : List String :=
  (if optTruthy className then findAllTagClass doc tag (className.getD "")
   else if optTruthy idName then findAllTagId doc tag (idName.getD "")
   else findAllTag doc tag).filterMap (fun el =>
    if strTrim el.text = "" then none else some (strTrim el.text))

/-- Written from the specification's words, for comparison with
`scrape_specific_content`: all non-empty whitespace-trimmed text nodes of
the whole document, in document order, independent of tag semantics. -/
def spec_allDocumentTexts (doc : Document) : List String :=
  doc.nodes.filterMap (fun el =>
    if strTrim el.text = "" then none else some (strTrim el.text))

/-- A document in which no selector rule matches and there are no anchors. -/
def emptySoup : Soup where
  select := fun _ => []
  anchors := []

/-- A document in which both the first and the second selector rule would
match. -/
def soupTwoRules : Soup where
  select := fun s =>
    if s == "article h2 a" then
      [{ text := "Alpha article headline", href := some "/post/1" }]
    else if s == "h1 a" then
      [{ text := "Beta article headline", href := some "/post/2" },
       { text := "Gamma article headline", href := some "/post/3" }]
    else []
  anchors := []

/-- A document in which no selector rule matches and the fallback anchors
are a short-text anchor and a long-text anchor. -/
def soupFallback : Soup where
  select := fun _ => []
  anchors :=
    [{ text := "Hi", href := some "/post/41" },
     { text := "Read the full announcement", href := some "/post/42" }]

/-- A document whose first selector rule matches two links resolving to the
same absolute URL. -/
def soupDup : Soup where
  select := fun s =>
    if s == "article h2 a" then
      [{ text := "First headline text", href := some "/post/42" },
       { text := "Second headline text", href := some "/post/42" }]
    else []
  anchors := []

/-- A document whose first selector rule matches one whitespace-only link,
while a fallback anchor with substantial text exists. -/
def soupSkip : Soup where
  select := fun s =>
    if s == "article h2 a" then [{ text := "   ", href := some "/post/9" }]
    else []
  anchors := [{ text := "Read the full announcement", href := some "/post/42" }]

/-- A two-node document: an `h1` title and a `p` body. -/
def exDoc : Document where
  nodes :=
    [{ tag := "h1", classes := [], idAttr := none, text := "Title" },
     { tag := "p", classes := [], idAttr := none, text := "A longer body text" }]

/-- A document with two identical `p` text nodes. -/
def dupDoc : Document where
  nodes :=
    [{ tag := "p", classes := [], idAttr := none, text := "dup text node here" },
     { tag := "p", classes := [], idAttr := none, text := "dup text node here" }]

/-- A document exercising the class- and id-filtered selection modes. -/
def classDoc : Document where
  nodes :=
    [{ tag := "p", classes := ["intro"], idAttr := none,
       text := "First paragraph" },
     { tag := "p", classes := [], idAttr := some "main",
       text := "Second paragraph" },
     { tag := "div", classes := ["intro"], idAttr := none,
       text := "Not a paragraph" }]

/-- The deny-list substrings named by the specification; a sublist of the
code's `skipPatterns`. -/
def denyListSubstrings : List String :=
  ["/tag/", "/category/", "/author/", "/feed/",
   ".pdf", ".jpg", ".png", ".gif", ".css", ".js"]

theorem extract_articles_eq (base : String) (soup : Soup) :
    extract_articles base soup =
      dedupArticles (processLinks base (effectiveLinks soup)) [] := rfl

theorem firstNonEmptySelect_eq_nil (soup : Soup) :
    ∀ sels : List String, (∀ s, s ∈ sels → soup.select s = []) →
      firstNonEmptySelect soup sels = []
  | [], _ => rfl
  | s :: rest, h => by
    have hs : soup.select s = [] := h s (List.mem_cons_self s rest)
    have ih := firstNonEmptySelect_eq_nil soup rest
      (fun t ht => h t (List.mem_cons_of_mem s ht))
    simp [firstNonEmptySelect, hs, ih]

theorem firstNonEmptySelect_first (soup : Soup) :
    ∀ (sels : List String) (i : Nat) (hi : i < sels.length),
      soup.select (sels.get ⟨i, hi⟩) ≠ [] →
      ∃ k, ∃ hk : k < sels.length, k ≤ i ∧
        soup.select (sels.get ⟨k, hk⟩) ≠ [] ∧
        (∀ m, ∀ hm : m < sels.length, m < k →
          soup.select (sels.get ⟨m, hm⟩) = []) ∧
        firstNonEmptySelect soup sels = soup.select (sels.get ⟨k, hk⟩)
  | [], i, hi, _ => absurd hi (Nat.not_lt_zero i)
  | s :: rest, i, hi, hne => by
    by_cases hs : soup.select s = []
    · match i, hi, hne with
      | 0, hi, hne => exact absurd hs hne
      | i' + 1, hi, hne =>
        obtain ⟨k, hk, hki, hkne, hmin, heq⟩ :=
          firstNonEmptySelect_first soup rest i' (Nat.lt_of_succ_lt_succ hi) hne
        refine ⟨k + 1, Nat.succ_lt_succ hk, Nat.succ_le_succ hki, hkne, ?_, ?_⟩
        · intro m hm hmk
          match m, hm, hmk with
          | 0, _, _ => exact hs
          | m' + 1, hm, hmk =>
            exact hmin m' (Nat.lt_of_succ_lt_succ hm) (Nat.lt_of_succ_lt_succ hmk)
        · simp only [firstNonEmptySelect, hs, List.isEmpty_nil, if_true]
          exact heq
    · refine ⟨0, Nat.succ_pos rest.length, Nat.zero_le i, hs, ?_, ?_⟩
      · intro m hm hmk
        exact absurd hmk (Nat.not_lt_zero m)
      · have hfalse : (soup.select s).isEmpty = false := by
          cases h : soup.select s with
          | nil => exact absurd h hs
          | cons a l => rfl
        simp [firstNonEmptySelect, hfalse]

theorem dedupArticles_sublist :
    ∀ (l : List Article) (seen : List String), List.Sublist (dedupArticles l seen) l
  | [], _ => List.Sublist.refl []
  | a :: rest, seen => by
    by_cases h : a.url ∈ seen
    · simp only [dedupArticles, if_pos h]
      exact List.Sublist.cons a (dedupArticles_sublist rest seen)
    · simp only [dedupArticles, if_neg h]
      exact List.Sublist.cons₂ a (dedupArticles_sublist rest (a.url :: seen))

theorem dedupArticles_url_notMem_seen :
    ∀ (l : List Article) (seen : List String) (b : Article),
      b ∈ dedupArticles l seen → b.url ∉ seen
  | [], _, b, hb => by simp [dedupArticles] at hb
  | a :: rest, seen, b, hb => by
    by_cases h : a.url ∈ seen
    · simp only [dedupArticles, if_pos h] at hb
      exact dedupArticles_url_notMem_seen rest seen b hb
    · simp only [dedupArticles, if_neg h] at hb
      rcases List.mem_cons.mp hb with hba | hbtail
      · subst hba; exact h
      · have hrec := dedupArticles_url_notMem_seen rest (a.url :: seen) b hbtail
        intro hmem
        exact hrec (List.mem_cons_of_mem _ hmem)

theorem dedupArticles_pairwise :
    ∀ (l : List Article) (seen : List String),
      (dedupArticles l seen).Pairwise (fun a b => a.url ≠ b.url)
  | [], _ => List.Pairwise.nil
  | a :: rest, seen => by
    by_cases h : a.url ∈ seen
    · simp only [dedupArticles, if_pos h]
      exact dedupArticles_pairwise rest seen
    · simp only [dedupArticles, if_neg h]
      refine List.Pairwise.cons ?_ (dedupArticles_pairwise rest (a.url :: seen))
      intro b hb hab
      have hnot := dedupArticles_url_notMem_seen rest (a.url :: seen) b hb
      exact hnot (by rw [← hab]; exact List.mem_cons_self _ _)

theorem dedupArticles_find :
    ∀ (l : List Article) (seen : List String) (b : Article),
      b ∈ dedupArticles l seen →
      b.url ∉ seen ∧ l.find? (fun a => a.url == b.url) = some b
  | [], _, b, hb => by simp [dedupArticles] at hb
  | a :: rest, seen, b, hb => by
    by_cases h : a.url ∈ seen
    · simp only [dedupArticles, if_pos h] at hb
      obtain ⟨hnot, hfind⟩ := dedupArticles_find rest seen b hb
      have hne : a.url ≠ b.url := fun he => hnot (he ▸ h)
      refine ⟨hnot, ?_⟩
      rw [List.find?_cons_of_neg _ (by simp [hne]), hfind]
    · simp only [dedupArticles, if_neg h] at hb
      rcases List.mem_cons.mp hb with hba | hbtail
      · subst hba
        refine ⟨h, ?_⟩
        rw [List.find?_cons_of_pos _ (by simp)]
      · obtain ⟨hnot, hfind⟩ := dedupArticles_find rest (a.url :: seen) b hbtail
        have hne : a.url ≠ b.url :=
          fun he => hnot (by rw [← he]; exact List.mem_cons_self _ _)
        refine ⟨fun hmem => hnot (List.mem_cons_of_mem _ hmem), ?_⟩
        rw [List.find?_cons_of_neg _ (by simp [hne]), hfind]

theorem dedupArticles_covers :
    ∀ (l : List Article) (seen : List String) (a : Article),
      a ∈ l → a.url ∈ seen ∨ ∃ b, b ∈ dedupArticles l seen ∧ b.url = a.url
  | [], _, a, ha => absurd ha (List.not_mem_nil a)
  | x :: rest, seen, a, ha => by
    by_cases h : x.url ∈ seen
    · simp only [dedupArticles, if_pos h]
      rcases List.mem_cons.mp ha with hax | harest
      · subst hax; exact Or.inl h
      · exact dedupArticles_covers rest seen a harest
    · simp only [dedupArticles, if_neg h]
      rcases List.mem_cons.mp ha with hax | harest
      · exact Or.inr ⟨x, List.mem_cons_self _ _, by rw [hax]⟩
      · rcases dedupArticles_covers rest (x.url :: seen) a harest with
          hseen | ⟨b, hb, hburl⟩
        · rcases List.mem_cons.mp hseen with heq | hseen'
          · exact Or.inr ⟨x, List.mem_cons_self _ _, heq.symm⟩
          · exact Or.inl hseen'
        · exact Or.inr ⟨b, List.mem_cons_of_mem _ hb, hburl⟩

theorem mem_processLinks (base : String) (links : List Element) (r : Article)
    (hr : r ∈ processLinks base links) :
    ∃ l, l ∈ links ∧ ∃ h, l.href = some h ∧ getTextStrip l ≠ "" ∧ h ≠ "" ∧
      r.title = getTextStrip l ∧ r.url = urljoin base h ∧
      is_valid_article_url r.url = true := by
  obtain ⟨l, hl, hrec⟩ := List.mem_filterMap.mp hr
  refine ⟨l, hl, ?_⟩
  unfold recordOf at hrec
  split at hrec
  · exact absurd hrec (by simp)
  next href heq =>
    split at hrec
    next hcond =>
      split at hrec
      next hval =>
        have hrq := Option.some.inj hrec
        refine ⟨href, heq, hcond.1, hcond.2, ?_, ?_, ?_⟩
        · rw [← hrq]
        · rw [← hrq]
        · rw [← hrq]; exact hval
      next hval => exact absurd hrec (by simp)
    next hcond => exact absurd hrec (by simp)

theorem mem_extract_articles (base : String) (soup : Soup) (r : Article)
    (hr : r ∈ extract_articles base soup) :
    ∃ l, l ∈ effectiveLinks soup ∧ ∃ h, l.href = some h ∧
      r.title = getTextStrip l ∧ r.url = urljoin base h ∧
      is_valid_article_url r.url = true := by
  rw [extract_articles_eq] at hr
  have hraw : r ∈ processLinks base (effectiveLinks soup) :=
    (dedupArticles_sublist _ []).subset hr
  obtain ⟨l, hl, h, hh, _, _, ht, hu, hv⟩ := mem_processLinks base _ r hraw
  exact ⟨l, hl, h, hh, ht, hu, hv⟩

theorem hasSubstrChars_singleton (c : Char) :
    ∀ l : List Char, c ∈ l → hasSubstrChars [c] l = true
  | [], h => absurd h (List.not_mem_nil c)
  | x :: xs, h => by
    rcases List.mem_cons.mp h with rfl | hxs
    · simp [hasSubstrChars, startsWithChars]
    · simp only [hasSubstrChars, Bool.or_eq_true]
      exact Or.inr (hasSubstrChars_singleton c xs hxs)

theorem containsSubstr_hash (url : String) (h : '#' ∈ url.toList) :
    containsSubstr (lowerStr url) "#" = true := by
  have he : Char.toLower '#' = '#' := by decide
  have h2 : '#' ∈ url.toList.map Char.toLower := by
    have hm := List.mem_map_of_mem Char.toLower h
    rw [he] at hm
    exact hm
  exact hasSubstrChars_singleton '#' (url.toList.map Char.toLower) h2

theorem urlsplitE_ok (url d : String) (p : UrlParts)
    (h : urlsplitE url d = Except.ok p) : p = urlsplitD url d := by
  simp only [urlsplitE] at h
  split at h
  · exact absurd h (by simp)
  · split at h
    · exact absurd h (by simp)
    · exact (Except.ok.inj h).symm

theorem is_valid_false_of_hash (url : String) (h : '#' ∈ url.toList) :
    is_valid_article_url url = false := by
  unfold is_valid_article_url
  split
  · rfl
  next parsed heq =>
    by_cases hs : strStartsWith parsed.scheme "http" = true
    · rw [if_pos hs]
      have hany :
          skipPatterns.any (fun p => containsSubstr (lowerStr url) p) = true :=
        List.any_eq_true.mpr ⟨"#", by decide, containsSubstr_hash url h⟩
      rw [hany]
      decide
    · rw [if_neg hs]

theorem deny_sub_skip : ∀ p, p ∈ denyListSubstrings → p ∈ skipPatterns := by
  decide

theorem filter_fallback_eq (l : List Element) :
    ((l.filter (fun a => a.href.isSome)).filter
      (fun x => decide (getTextStrip x ≠ "") &&
        decide (10 < (getTextStrip x).length))) =
    l.filter (fun a => a.href.isSome && decide (10 < (getTextStrip a).length)) := by
  rw [List.filter_filter]
  apply List.filter_congr
  intro a _
  by_cases hl : 10 < (getTextStrip a).length
  · have hne : getTextStrip a ≠ "" := by
      intro he
      rw [he] at hl
      exact absurd hl (by decide)
    by_cases hh : a.href.isSome
    · simp [hl, hne, hh]
    · simp [hl, hne, hh]
  · simp [hl]

theorem mem_fallbackLinks (soup : Soup) (l : Element) :
    l ∈ fallbackLinks soup ↔
      l ∈ soup.anchors ∧ l.href.isSome = true ∧ 10 < (getTextStrip l).length := by
  rw [show fallbackLinks soup =
        soup.anchors.filter
          (fun a => a.href.isSome && decide (10 < (getTextStrip a).length)) from
      filter_fallback_eq soup.anchors]
  rw [List.mem_filter]
  constructor
  · rintro ⟨h1, h2⟩
    rw [Bool.and_eq_true] at h2
    exact ⟨h1, h2.1, of_decide_eq_true h2.2⟩
  · rintro ⟨h1, h2, h3⟩
    refine ⟨h1, ?_⟩
    rw [Bool.and_eq_true]
    exact ⟨h2, decide_eq_true h3⟩

theorem filter_filterMap_trim_eq (p : Node → Bool) :
    ∀ l : List Node,
      ((l.filter p).filterMap
        (fun el => if strTrim el.text = "" then none else some (strTrim el.text))) =
      l.filterMap
        (fun n => if p n = true ∧ strTrim n.text ≠ "" then
          some (strTrim n.text) else none)
  | [] => rfl
  | n :: rest => by
    have ih := filter_filterMap_trim_eq p rest
    by_cases hp : p n = true
    · by_cases he : strTrim n.text = ""
      · simp [List.filter_cons, List.filterMap_cons, hp, he, ih]
      · simp [List.filter_cons, List.filterMap_cons, hp, he, ih]
    · simp [List.filter_cons, List.filterMap_cons, hp, ih]

theorem filterMap_congr_str (f g : Node → Option String) (h : ∀ n, f n = g n) :
    ∀ l : List Node, l.filterMap f = l.filterMap g
  | [] => rfl
  | a :: rest => by
    simp only [List.filterMap_cons, h a, filterMap_congr_str f g h rest]

/-- Claim C1: first-match-wins selector policy.  If the selector rule at
position `i` matches (non-empty match set), the extraction result is
computed from the matches of the first matching rule, at a position `k ≤ i`
before which every rule matches nothing; hence the matches of any later
rule `j > i` never contribute and no union of rules is taken. -/
theorem extract_articles_first_match_wins (base : String) (soup : Soup)
    (i j : Nat) (hij : i < j) (hj : j < articleSelectors.length)
    (hA : soup.select (articleSelectors.get ⟨i, Nat.lt_trans hij hj⟩) ≠ []) :
    ∃ k, ∃ hk : k < articleSelectors.length, k ≤ i ∧
      soup.select (articleSelectors.get ⟨k, hk⟩) ≠ [] ∧
      (∀ m, ∀ hm : m < articleSelectors.length, m < k →
        soup.select (articleSelectors.get ⟨m, hm⟩) = []) ∧
      extract_articles base soup =
        dedupArticles
          (processLinks base (soup.select (articleSelectors.get ⟨k, hk⟩))) [] := by
  obtain ⟨k, hk, hki, hkne, hmin, heq⟩ :=
    firstNonEmptySelect_first soup articleSelectors i (Nat.lt_trans hij hj) hA
  refine ⟨k, hk, hki, hkne, hmin, ?_⟩
  rw [extract_articles_eq]
  unfold effectiveLinks
  rw [heq]
  have hfalse : (soup.select (articleSelectors.get ⟨k, hk⟩)).isEmpty = false := by
    cases h : soup.select (articleSelectors.get ⟨k, hk⟩) with
    | nil => exact absurd h hkne
    | cons a l => rfl
  rw [hfalse]
  simp

/-- Witness for C1: on a document where the first and the second rule both
match, only the first rule's single match is extracted. -/
theorem extract_articles_first_match_wins_witness :
    extract_articles "https://example.com/" soupTwoRules =
      [{ title := "Alpha article headline", url := "https://example.com/post/1" }] := by
  obtain ⟨k, hk, hki, hkne, hmin, heq⟩ :=
    extract_articles_first_match_wins "https://example.com/" soupTwoRules 0 1
      (by decide) (by decide) (by decide)
  have hk0 : k = 0 := Nat.le_zero.mp hki
  subst hk0
  have hget : articleSelectors.get ⟨0, hk⟩ = "article h2 a" := rfl
  rw [heq, hget]
  decide

/-- Claim C2: fallback rule and minimum-length heuristic.  When no selector
rule matches, extraction processes exactly the anchors that have an href
attribute and whose trimmed text is longer than 10 characters; an anchor
with trimmed text of length 2 such as Hi is never among them, one with the
26-character text Read the full announcement (and an href) always is. -/
theorem extract_articles_fallback_rule (base : String) (soup : Soup)
    (hnone : ∀ s, s ∈ articleSelectors → soup.select s = []) :
    extract_articles base soup =
      dedupArticles (processLinks base (fallbackLinks soup)) [] ∧
    fallbackLinks soup =
      soup.anchors.filter
        (fun a => a.href.isSome && decide (10 < (getTextStrip a).length)) ∧
    (∀ l, l ∈ soup.anchors → getTextStrip l = "Hi" → l ∉ fallbackLinks soup) ∧
    (∀ l, l ∈ soup.anchors → l.href.isSome = true →
      getTextStrip l = "Read the full announcement" → l ∈ fallbackLinks soup) := by
  have hsel : firstNonEmptySelect soup articleSelectors = [] :=
    firstNonEmptySelect_eq_nil soup articleSelectors hnone
  refine ⟨?_, filter_fallback_eq soup.anchors, ?_, ?_⟩
  · rw [extract_articles_eq]
    unfold effectiveLinks
    rw [hsel]
    rfl
  · intro l _ hhi hmem
    have hlen := ((mem_fallbackLinks soup l).mp hmem).2.2
    rw [hhi] at hlen
    exact absurd hlen (by decide)
  · intro l hl hhref hread
    refine (mem_fallbackLinks soup l).mpr ⟨hl, hhref, ?_⟩
    rw [hread]
    decide

/-- Witness for C2: on a fallback-mode document the 2-character anchor is
excluded and the 26-character anchor is extracted. -/
theorem extract_articles_fallback_rule_witness :
    extract_articles "https://example.com/" soupFallback =
      [{ title := "Read the full announcement",
         url := "https://example.com/post/42" }] := by
  have h := (extract_articles_fallback_rule "https://example.com/" soupFallback
    (fun s _ => rfl)).1
  rw [h]
  decide

/-- Claim C3: the URL-validity filter returns false for every URL whose
parsed scheme does not start with http (so javascript, mailto, tel and
fragment-only references are rejected) and for every URL containing a
deny-list substring case-insensitively; in particular the image URL and the
javascript URL named by the specification are rejected. -/
theorem is_valid_article_url_rejections (url : String) :
    (strStartsWith (urlsplitD url "").scheme "http" = false →
      is_valid_article_url url = false) ∧
    (∀ p, p ∈ denyListSubstrings → containsSubstr (lowerStr url) p = true →
      is_valid_article_url url = false) ∧
    is_valid_article_url "https://example.com/img.png" = false ∧
    is_valid_article_url "javascript:void(0)" = false := by
  refine ⟨?_, ?_, by decide, by decide⟩
  · intro hs
    unfold is_valid_article_url
    split
    · rfl
    next parsed heq =>
      rw [urlsplitE_ok url "" parsed heq, hs]
      simp
  · intro p hp hc
    unfold is_valid_article_url
    split
    · rfl
    next parsed heq =>
      by_cases hs : strStartsWith parsed.scheme "http" = true
      · rw [if_pos hs]
        have hany :
            skipPatterns.any (fun q => containsSubstr (lowerStr url) q) = true :=
          List.any_eq_true.mpr ⟨p, deny_sub_skip p hp, hc⟩
        rw [hany]
        decide
      · rw [if_neg hs]

/-- Witness for C3: a mailto URL is rejected through the scheme test. -/
theorem is_valid_article_url_rejections_witness :
    is_valid_article_url "mailto:someone@example.com" = false :=
  (is_valid_article_url_rejections "mailto:someone@example.com").1 (by decide)

/-- Claim C4: dedup invariant: the returned records have pairwise distinct
URLs; the result is a subsequence of the candidate records (first-seen
traversal order preserved); each returned record is the first candidate
carrying its URL; and every candidate URL is represented by a record. -/
theorem extract_articles_dedup_invariant (base : String) (soup : Soup) :
    (extract_articles base soup).Pairwise (fun a b => a.url ≠ b.url) ∧
    List.Sublist (extract_articles base soup)
      (processLinks base (effectiveLinks soup)) ∧
    (∀ b, b ∈ extract_articles base soup →
      (processLinks base (effectiveLinks soup)).find?
        (fun a => a.url == b.url) = some b) ∧
    (∀ a, a ∈ processLinks base (effectiveLinks soup) →
      ∃ b, b ∈ extract_articles base soup ∧ b.url = a.url) := by
  rw [extract_articles_eq]
  refine ⟨dedupArticles_pairwise _ _, dedupArticles_sublist _ _, ?_, ?_⟩
  · intro b hb
    exact (dedupArticles_find _ [] b hb).2
  · intro a ha
    rcases dedupArticles_covers _ [] a ha with hseen | hcov
    · exact absurd hseen (List.not_mem_nil _)
    · exact hcov

/-- Witness for C4: two candidates resolving to the same absolute URL yield
exactly the first-encountered record. -/
theorem extract_articles_dedup_invariant_witness :
    extract_articles "https://example.com/" soupDup =
      [{ title := "First headline text", url := "https://example.com/post/42" }] ∧
    List.Sublist (extract_articles "https://example.com/" soupDup)
      (processLinks "https://example.com/" (effectiveLinks soupDup)) :=
  ⟨by decide,
   (extract_articles_dedup_invariant "https://example.com/" soupDup).2.1⟩

/-- Claim C5: every returned record's URL is its candidate's href resolved
against the base URL by the urljoin model, and urljoin resolves
relative-path, protocol-relative and fragment references per the standard
rules; in particular /post/42 against https with the blog base resolves to
the site root post URL. -/
theorem extract_articles_url_resolution (base : String) (soup : Soup) :
    (∀ r, r ∈ extract_articles base soup →
      ∃ l, l ∈ effectiveLinks soup ∧ ∃ h, l.href = some h ∧
        r.url = urljoin base h) ∧
    urljoin "https://example.com/blog/" "/post/42" =
      "https://example.com/post/42" ∧
    urljoin "https://example.com/blog/" "post/42" =
      "https://example.com/blog/post/42" ∧
    urljoin "https://example.com/blog/" "//cdn.example.com/library" =
      "https://cdn.example.com/library" ∧
    urljoin "https://example.com/blog/" "#comments" =
      "https://example.com/blog/#comments" := by
  refine ⟨?_, by decide, by decide, by decide, by decide⟩
  intro r hr
  obtain ⟨l, hl, h, hh, _, hu, _⟩ := mem_extract_articles base soup r hr
  exact ⟨l, hl, h, hh, hu⟩

/-- Witness for C5: the specification's concrete resolution example. -/
theorem extract_articles_url_resolution_witness :
    urljoin "https://example.com/blog/" "/post/42" =
      "https://example.com/post/42" :=
  (extract_articles_url_resolution "https://example.com/" emptySoup).2.1

/-- Claim C6: empty result, never an error: when no candidate record is
derived the result is the empty list; the empty document yields the empty
list; and the exception handler maps any extraction error to the empty
list instead of aborting. -/
theorem extract_articles_empty_result (base : String) (soup : Soup) :
    (processLinks base (effectiveLinks soup) = [] →
      extract_articles base soup = []) ∧
    extract_articles base emptySoup = [] ∧
    (∀ msg, catchExtract (Except.error msg) = []) := by
  refine ⟨?_, by rfl, fun _ => rfl⟩
  intro h
  rw [extract_articles_eq, h]
  rfl

/-- Witness for C6: the empty document produces the empty list. -/
theorem extract_articles_empty_result_witness :
    extract_articles "https://example.com/" emptySoup = [] :=
  (extract_articles_empty_result "https://example.com/" emptySoup).1 (by rfl)

/-- Claim C7: the URL-validity filter is a total boolean predicate on
arbitrary strings and never propagates a parse failure: whenever the
urlsplit model raises (any ValueError path) the filter returns false, as
the source's except branch does; concretely, the unparseable URL with an
unbalanced bracket in its netloc parses with an error and is reported
invalid, not an error. -/
theorem is_valid_article_url_total (url : String) :
    (is_valid_article_url url = true ∨ is_valid_article_url url = false) ∧
    (∀ e, urlsplitE url "" = Except.error e → is_valid_article_url url = false) ∧
    urlsplitE "http://[abc" "" = Except.error "Invalid IPv6 URL" ∧
    is_valid_article_url "http://[abc" = false := by
  refine ⟨?_, ?_, by rfl, by decide⟩
  · cases h : is_valid_article_url url
    · exact Or.inr rfl
    · exact Or.inl rfl
  · intro e he
    unfold is_valid_article_url
    rw [he]

/-- Witness for C7: the unbalanced-bracket URL is invalid, not an error. -/
theorem is_valid_article_url_total_witness :
    is_valid_article_url "http://[abc" = false :=
  (is_valid_article_url_total "http://[abc").2.1 "Invalid IPv6 URL" (by rfl)

/-- Claim C9: any URL containing the fragment character is rejected by the
validity filter — not only fragment-only references — including an
otherwise-valid article URL with a fragment; consequently no record
returned by the extractor carries a fragment. -/
theorem fragment_bearing_urls_dropped (url base : String) (soup : Soup) :
    ('#' ∈ url.toList → is_valid_article_url url = false) ∧
    is_valid_article_url "https://example.com/post/42#comments" = false ∧
    (∀ r, r ∈ extract_articles base soup → '#' ∉ r.url.toList) := by
  refine ⟨is_valid_false_of_hash url, by decide, ?_⟩
  intro r hr hmem
  obtain ⟨l, hl, h, hh, ht, hu, hv⟩ := mem_extract_articles base soup r hr
  have hfalse := is_valid_false_of_hash r.url hmem
  rw [hfalse] at hv
  exact Bool.false_ne_true hv

/-- Witness for C9: a fragment-bearing absolute article URL is rejected. -/
theorem fragment_bearing_urls_dropped_witness :
    is_valid_article_url "https://example.com/a#b" = false :=
  (fragment_bearing_urls_dropped "https://example.com/a#b" "https://example.com/"
    emptySoup).1 (by decide)

/-- Claim C10: the fallback is consulted only when every selector rule
matches nothing: if the selector loop produced a non-empty match but every
matched element is skipped during record derivation, the result is the
empty list — the generic all-anchors fallback is never used. -/
theorem no_fallback_after_selector_match (base : String) (soup : Soup)
    (hmatch : firstNonEmptySelect soup articleSelectors ≠ [])
    (hskip : processLinks base (firstNonEmptySelect soup articleSelectors) = []) :
    extract_articles base soup = [] := by
  have hfalse : (firstNonEmptySelect soup articleSelectors).isEmpty = false := by
    cases h : firstNonEmptySelect soup articleSelectors with
    | nil => exact absurd h hmatch
    | cons a l => rfl
  rw [extract_articles_eq]
  unfold effectiveLinks
  rw [hfalse]
  simp [hskip, dedupArticles]

/-- Witness for C10: a document whose matched selector links are all
skipped returns the empty list even though the fallback anchors are
non-empty. -/
theorem no_fallback_after_selector_match_witness :
    fallbackLinks soupSkip ≠ [] ∧
    extract_articles "https://example.com/" soupSkip = [] :=
  ⟨by decide,
   no_fallback_after_selector_match "https://example.com/" soupSkip
     (by decide) (by decide)⟩

/-- Claim C8, counterexample: called on a two-node document with tag h1 the
function returns only the h1 text, not all non-empty trimmed text nodes of
the document — so the claim that it collects all text nodes with no
filtering beyond trimming and non-emptiness is false. -/
theorem scrape_specific_content_not_all_texts :
    scrape_specific_content exDoc "h1" none none ≠ spec_allDocumentTexts exDoc := by
  decide

/-- Claim C8 (amended): `scrape_specific_content` returns, in document
order, without de-duplication, URL resolution or validity filtering, the
non-empty trimmed texts of exactly the selected elements: those matching
the requested tag; further restricted to the given class when a non-empty
class is supplied (the class filter takes precedence over the id filter),
or to the given id when a non-empty id is supplied; duplicates are
preserved. -/
theorem scrape_specific_content_characterization (doc : Document) (tag : String) :
    (scrape_specific_content doc tag none none =
      doc.nodes.filterMap
        (fun n => if n.tag = tag ∧ strTrim n.text ≠ "" then
          some (strTrim n.text) else none)) ∧
    (∀ cls, cls ≠ "" → ∀ idn,
      scrape_specific_content doc tag (some cls) idn =
        doc.nodes.filterMap
          (fun n => if n.tag = tag ∧ cls ∈ n.classes ∧ strTrim n.text ≠ "" then
            some (strTrim n.text) else none)) ∧
    (∀ idv, idv ≠ "" →
      scrape_specific_content doc tag none (some idv) =
        doc.nodes.filterMap
          (fun n => if n.tag = tag ∧ n.idAttr = some idv ∧ strTrim n.text ≠ "" then
            some (strTrim n.text) else none)) ∧
    scrape_specific_content dupDoc "p" none none =
      ["dup text node here", "dup text node here"] := by
  refine ⟨?_, ?_, ?_, by decide⟩
  · rw [show scrape_specific_content doc tag none none =
        ((doc.nodes.filter (fun n => n.tag == tag)).filterMap
          (fun el => if strTrim el.text = "" then none
            else some (strTrim el.text))) from rfl]
    rw [filter_filterMap_trim_eq]
    exact filterMap_congr_str _ _
      (fun n => if_congr (and_congr_left' beq_iff_eq) rfl rfl) doc.nodes
  · intro cls hcls idn
    have ht : optTruthy (some cls) = true := by simp [optTruthy, hcls]
    unfold scrape_specific_content
    rw [if_pos ht]
    rw [show findAllTagClass doc tag ((some cls).getD "") =
        doc.nodes.filter (fun n => n.tag == tag && n.classes.contains cls)
      from rfl]
    rw [filter_filterMap_trim_eq]
    apply filterMap_congr_str
    intro n
    refine if_congr ?_ rfl rfl
    constructor
    · rintro ⟨hab, hc⟩
      rw [Bool.and_eq_true] at hab
      exact ⟨beq_iff_eq.mp hab.1, List.elem_iff.mp hab.2, hc⟩
    · rintro ⟨h1, h2, hc⟩
      refine ⟨?_, hc⟩
      rw [Bool.and_eq_true]
      exact ⟨beq_iff_eq.mpr h1, List.elem_iff.mpr h2⟩
  · intro idv hidv
    have ht : optTruthy (some idv) = true := by simp [optTruthy, hidv]
    unfold scrape_specific_content
    rw [if_neg (show ¬ optTruthy (none : Option String) = true by
      simp [optTruthy])]
    rw [if_pos ht]
    rw [show findAllTagId doc tag ((some idv).getD "") =
        doc.nodes.filter (fun n => n.tag == tag && n.idAttr == some idv)
      from rfl]
    rw [filter_filterMap_trim_eq]
    apply filterMap_congr_str
    intro n
    refine if_congr ?_ rfl rfl
    constructor
    · rintro ⟨hab, hc⟩
      rw [Bool.and_eq_true] at hab
      exact ⟨beq_iff_eq.mp hab.1, beq_iff_eq.mp hab.2, hc⟩
    · rintro ⟨h1, h2, hc⟩
      refine ⟨?_, hc⟩
      rw [Bool.and_eq_true]
      exact ⟨beq_iff_eq.mpr h1, beq_iff_eq.mpr h2⟩

/-- Witness for C8: the class-filtered mode on a concrete document keeps
the paragraph with the requested class and drops the other nodes. -/
theorem scrape_specific_content_characterization_witness :
    scrape_specific_content classDoc "p" (some "intro") none =
      ["First paragraph"] := by
  rw [(scrape_specific_content_characterization classDoc "p").2.1 "intro"
    (by decide) none]
  decide

end Scraper
